import Mathlib

/-!
Shallow embedding of the GoExecutors thread-pool executor
(`executors/executors.go`, `metrics/metrics.go`, `config/config.go`)
together with proofs about the properties its specification states.

Conventions of the embedding:
* Go `int64` / `int32` values are modelled as `Int`; 64-bit additive
  wraparound is made explicit through `wrap64` where the source performs an
  atomic add on an `int64` field.  The `int32` worker counters are modelled
  as plain `Int` (their wraparound point `2^31` is unreachable in every
  scenario considered here).
* A Go `interface{}` payload is modelled as `Option Nat` (`none` = `nil`).
* Fallible Go operations return `Option`.
* Stateful code is explicit state passing; the nondeterminism of Go's
  `select` is an explicit choice argument, constrained to ready cases.
-/

namespace GoExecutors

/-- Payload carried by a task result (a Go `interface{}` value, `Nat`-coded). -/
abbrev GoValue := Nat

/-- Go `error` values that appear in the executor: the four sentinel errors of
`executors.go`, the `context` errors, the `errors.New("future has no result")`
value of `Future.Get`, and opaque domain errors returned by tasks.
`taskPanicWrap cause` models `fmt.Errorf("%w: %v", ErrTaskPanic, r)`. -/
inductive GoErr where
  | executorShutdown
  | taskRejected
  | taskTimeout
  | taskPanicWrap (cause : Nat)
  | contextCanceled
  | contextDeadlineExceeded
  | futureNoResult
  | domain (code : Nat)
deriving DecidableEq

/-- `Result` of `executors.go`: `Value interface{}; Error error`. -/
structure Result where
  value : Option GoValue
  error : Option GoErr
deriving DecidableEq

/-- `Future` of `executors.go`.  `ctxCanceled` models whether the future's
derived child context has been cancelled (`cancel` field), `doneClosed`
whether `close(done)` has happened, `result` the `result *Result` slot and
`onceUsed` the `sync.Once` completion guard. -/
structure Future where
  ctxCanceled : Bool
  doneClosed : Bool
  result : Option Result
  onceUsed : Bool
deriving DecidableEq

/-- `NewFuture`: fresh future with an uncancelled child context, an open
`done` channel, no result and an unused once-guard. -/
def NewFuture : Future :=
  { ctxCanceled := false, doneClosed := false, result := none, onceUsed := false }

/-- `Future.complete`: under the `sync.Once` guard, install the result and
then close `done`; a second call is a no-op. -/
def Future.complete (f : Future) (r : Result) : Future :=
  if f.onceUsed then f
  else { f with result := some r, doneClosed := true, onceUsed := true }

/-- `Future.Cancel`: invoke the stored `context.CancelFunc`; this only signals
the scope and never writes the outcome slot. -/
def Future.cancel (f : Future) : Future :=
  { f with ctxCanceled := true }

/-- `Future.IsDone`: non-blocking probe of the `done` channel. -/
def Future.isDone (f : Future) : Bool := f.doneClosed

/-- Body of `Future.Get` once `<-f.done` has returned: if the result slot is
still `nil` return the "future has no result" error, otherwise return the
installed value/error pair. -/
def Future.getAfterDone (f : Future) : Option GoValue × Option GoErr :=
  match f.result with
  | none => (none, some .futureNoResult)
  | some r => (r.value, r.error)

/-- `Future.GetWithTimeout`: the `select` races `<-f.done` against
`time.After(timeout)`; `doneFired` says which case won (it can only be `true`
when `done` is closed).  Both branches leave the future untouched, which the
returned state makes explicit. -/
def Future.getWithTimeout (f : Future) (doneFired : Bool) :
    (Option GoValue × Option GoErr) × Future :=
  if doneFired then (f.getAfterDone, f)
  else ((none, some .taskTimeout), f)

/-! ### Metrics (`metrics/metrics.go`) -/

/-- Largest non-negative `int64` value, `int64(^uint64(0) >> 1)` in the Go
source. -/
def int64Max : Int := 2 ^ 63 - 1

/-- Two's-complement wraparound of a 64-bit signed addition result. -/
def wrap64 (x : Int) : Int := (x + 2 ^ 63) % 2 ^ 64 - 2 ^ 63

/-- The counter fields of `Metrics` (the gauges, which are plain atomic
stores, are not needed by the claims about counters). -/
structure Metrics where
  tasksSubmitted : Int
  tasksCompleted : Int
  tasksFailed : Int
  tasksTimeout : Int
  tasksPanic : Int
  totalExecutionTime : Int
  minExecutionTime : Int
  maxExecutionTime : Int
deriving DecidableEq

/-- `NewMetrics`: all counters zero except `MinExecutionTime`, which starts at
the largest non-negative `int64`. -/
def NewMetrics : Metrics :=
  { tasksSubmitted := 0, tasksCompleted := 0, tasksFailed := 0,
    tasksTimeout := 0, tasksPanic := 0, totalExecutionTime := 0,
    minExecutionTime := int64Max, maxExecutionTime := 0 }

/-- `IncrementTasksSubmitted` (atomic 64-bit add). -/
def Metrics.incSubmitted (m : Metrics) : Metrics :=
  { m with tasksSubmitted := wrap64 (m.tasksSubmitted + 1) }

/-- `IncrementTasksCompleted` (atomic 64-bit add). -/
def Metrics.incCompleted (m : Metrics) : Metrics :=
  { m with tasksCompleted := wrap64 (m.tasksCompleted + 1) }

/-- `IncrementTasksFailed` (atomic 64-bit add). -/
def Metrics.incFailed (m : Metrics) : Metrics :=
  { m with tasksFailed := wrap64 (m.tasksFailed + 1) }

/-- `IncrementTasksPanic` (atomic 64-bit add). -/
def Metrics.incPanic (m : Metrics) : Metrics :=
  { m with tasksPanic := wrap64 (m.tasksPanic + 1) }

/-- `RecordExecutionTime`: add the nanosecond count to the total, then run the
two CAS loops.  Sequentially, the min loop stores `nanos` exactly when
`nanos < MinExecutionTime` and the max loop stores it exactly when
`nanos > MaxExecutionTime`. -/
def Metrics.recordExecutionTime (m : Metrics) (nanos : Int) : Metrics :=
  let m1 := { m with totalExecutionTime := wrap64 (m.totalExecutionTime + nanos) }
  let m2 := if nanos < m1.minExecutionTime
    then { m1 with minExecutionTime := nanos } else m1
  if nanos > m2.maxExecutionTime
    then { m2 with maxExecutionTime := nanos } else m2

/-- A sequence of `RecordExecutionTime` calls. -/
def Metrics.recordAll (m : Metrics) (l : List Int) : Metrics :=
  l.foldl Metrics.recordExecutionTime m

/-! ### Configuration (`config/config.go`) -/

/-- `Config`.  `keepAliveTime` and `metricsInterval` are `time.Duration`
values in nanoseconds; `threadNamePfx` models the Go field
`ThreadNamePrefix`. -/
structure Config where
  corePoolSize : Int
  maxPoolSize : Int
  keepAliveTime : Int
  queueSize : Int
  allowCoreThreadTimeOut : Bool
  rejectPolicy : String
  threadNamePfx : String
  enableMetrics : Bool
  metricsInterval : Int
  enableLogging : Bool
  logLevel : String
deriving DecidableEq

/-- `DefaultConfig`, parameterised by `runtime.NumCPU()`. -/
def DefaultConfig (cpuNum : Int) : Config :=
  { corePoolSize := cpuNum, maxPoolSize := cpuNum * 4,
    keepAliveTime := 60 * 1000000000, queueSize := 1000,
    allowCoreThreadTimeOut := false, rejectPolicy := "abort",
    threadNamePfx := "goexecutor", enableMetrics := false,
    metricsInterval := 10 * 1000000000, enableLogging := false,
    logLevel := "info" }

/-- `Config.Validate`: clamps each out-of-range field in source order (the Go
method mutates the receiver and always returns a `nil` error). -/
def Config.validate (c : Config) : Config :=
  let c := if c.corePoolSize ≤ 0 then { c with corePoolSize := 1 } else c
  let c := if c.maxPoolSize < c.corePoolSize then { c with maxPoolSize := c.corePoolSize } else c
  let c := if c.queueSize < 0 then { c with queueSize := 0 } else c
  let c := if c.keepAliveTime ≤ 0 then { c with keepAliveTime := 60 * 1000000000 } else c
  if c.threadNamePfx = "" then { c with threadNamePfx := "goexecutor" } else c

/-! ### Models of the Go standard-library parsers used by `LoadFromEnv` -/

/-- Value of a non-empty run of decimal digits; `none` if any character is not
a digit. -/
def decDigits (cs : List Char) : Option Nat :=
  cs.foldl (fun acc c =>
    match acc with
    | none => none
    | some n => if c.isDigit then some (n * 10 + (c.toNat - 48)) else none)
    (some 0)

/-- A non-empty all-digit string, as a natural number. -/
def parseDecNat (cs : List Char) : Option Nat :=
  if cs.isEmpty then none else decDigits cs

/-- Model of `strconv.ParseInt(s, 10, _)` before the range check: an optional
sign followed by at least one decimal digit. -/
def parseIntDec (s : String) : Option Int :=
  match s.data with
  | [] => none
  | c :: rest =>
    if c = '-' then (parseDecNat rest).map (fun n => -(n : Int))
    else if c = '+' then (parseDecNat rest).map (fun n => (n : Int))
    else (parseDecNat (c :: rest)).map (fun n => (n : Int))

/-- Model of `strconv.ParseInt(s, 10, 32)`: out-of-range values are an error
(the Go call returns the clamped value together with a range error, and the
caller only uses the value when the error is `nil`). -/
def parseInt32 (s : String) : Option Int :=
  match parseIntDec s with
  | some n => if -(2 ^ 31) ≤ n ∧ n < 2 ^ 31 then some n else none
  | none => none

/-- Model of `strconv.Atoi` (= `ParseInt(s, 10, 0)` on a 64-bit platform). -/
def parseInt64 (s : String) : Option Int :=
  match parseIntDec s with
  | some n => if -(2 ^ 63) ≤ n ∧ n < 2 ^ 63 then some n else none
  | none => none

/-- Nanoseconds per duration unit, as in `time.ParseDuration`'s unit map. -/
def unitScale (u : String) : Option Int :=
  if u = "ns" then some 1
  else if u = "us" then some 1000
  else if u = "µs" then some 1000
  else if u = "μs" then some 1000
  else if u = "ms" then some 1000000
  else if u = "s" then some 1000000000
  else if u = "m" then some 60000000000
  else if u = "h" then some 3600000000000
  else none

/-- Split a leading run of decimal digits off a character list. -/
def takeDigits : List Char → List Char × List Char
  | [] => ([], [])
  | c :: cs =>
    if c.isDigit then
      let (d, r) := takeDigits cs
      (c :: d, r)
    else ([], c :: cs)

/-- Split a leading unit name (everything up to the next digit or dot) off a
character list. -/
def takeUnit : List Char → List Char × List Char
  | [] => ([], [])
  | c :: cs =>
    if c.isDigit ∨ c = '.' then ([], c :: cs)
    else
      let (u, r) := takeUnit cs
      (c :: u, r)

/-- One pass of `time.ParseDuration`'s main loop: repeatedly read
`[digits][.digits]unit` and sum the contributions.  `fuel` bounds the
recursion by the input length.  The Go function computes fractional parts in
`float64`; this model uses exact integer division, which agrees on the
integer-valued durations considered here (duration overflow is not
modelled). -/
def parseDurGroups : Nat → List Char → Option Int
  | _, [] => some 0
  | 0, _ :: _ => none
  | fuel + 1, c :: cs =>
    let (intPart, r1) := takeDigits (c :: cs)
    let (fracPart, r2) :=
      match r1 with
      | '.' :: r => takeDigits r
      | r => ([], r)
    if intPart.isEmpty ∧ fracPart.isEmpty then none
    else
      let (unitCs, r3) := takeUnit r2
      match unitScale (String.mk unitCs) with
      | none => none
      | some scale =>
        let n : Int := ((decDigits intPart).getD 0 : Nat)
        let fr : Int := ((decDigits fracPart).getD 0 : Nat)
        let v := n * scale + fr * scale / (10 ^ fracPart.length)
        match parseDurGroups fuel r3 with
        | none => none
        | some rest => some (v + rest)

/-- Model of `time.ParseDuration`: optional sign, the special case `"0"`, then
the group loop. -/
def parseDuration (s : String) : Option Int :=
  match s.data with
  | [] => none
  | cs =>
    let (neg, cs2) :=
      match cs with
      | '-' :: r => (true, r)
      | '+' :: r => (false, r)
      | r => (false, r)
    if cs2 = ['0'] then some 0
    else if cs2.isEmpty then none
    else
      match parseDurGroups (cs2.length + 1) cs2 with
      | none => none
      | some v => some (if neg then -v else v)

/-! ### `Config.LoadFromEnv` (`config/config.go`) -/

/-- A process environment: variable/value pairs. -/
abbrev Env := List (String × String)

/-- `os.Getenv`: the empty string when the variable is unset. -/
def getenv (env : Env) (k : String) : String :=
  (env.lookup k).getD ""

/-- One numeric `LoadFromEnv` block: if the variable is non-empty and parses,
take the parsed value, otherwise keep the prior value. -/
def envIntVal (env : Env) (key : String) (p : String → Option Int) (old : Int) : Int :=
  let v := getenv env key
  if v = "" then old else (p v).getD old

/-- One string `LoadFromEnv` block: any non-empty value is applied verbatim. -/
def envStrVal (env : Env) (key : String) (old : String) : String :=
  let v := getenv env key
  if v = "" then old else v

/-- One boolean `LoadFromEnv` block: the source sets the field to
`val == "true"` for any non-empty value. -/
def envBoolVal (env : Env) (key : String) (old : Bool) : Bool :=
  let v := getenv env key
  if v = "" then old else decide (v = "true")

/-- `Config.LoadFromEnv`.  The consecutive Go `if` blocks each touch one
distinct field, so their sequential composition is this simultaneous record
update.  The source reads exactly eight variables; `AllowCoreThreadTimeOut`,
`ThreadNamePrefix` and `MetricsInterval` have no environment override. -/
def Config.loadFromEnv (c : Config) (env : Env) : Config :=
  { c with
    corePoolSize := envIntVal env "GO_EXECUTOR_CORE_POOL_SIZE" parseInt32 c.corePoolSize,
    maxPoolSize := envIntVal env "GO_EXECUTOR_MAX_POOL_SIZE" parseInt32 c.maxPoolSize,
    keepAliveTime := envIntVal env "GO_EXECUTOR_KEEP_ALIVE_TIME" parseDuration c.keepAliveTime,
    queueSize := envIntVal env "GO_EXECUTOR_QUEUE_SIZE" parseInt64 c.queueSize,
    rejectPolicy := envStrVal env "GO_EXECUTOR_REJECT_POLICY" c.rejectPolicy,
    enableMetrics := envBoolVal env "GO_EXECUTOR_ENABLE_METRICS" c.enableMetrics,
    enableLogging := envBoolVal env "GO_EXECUTOR_ENABLE_LOGGING" c.enableLogging,
    logLevel := envStrVal env "GO_EXECUTOR_LOG_LEVEL" c.logLevel }

/-! ### Submission and rejection (`executors.go`) -/

/-- `handleRejectedTask`, applied to the rejected wrapper's future.  Returns
the future's state after the call together with the error value the method
returns.  For `caller_runs` the method only spawns a goroutine that will later
complete the future with the task's outcome, so the future is untouched at
return time. -/
def handleRejectedTask (policy : String) (f : Future) : Future × Option GoErr :=
  if policy = "abort" then
    (f.complete { value := none, error := some .taskRejected }, some .taskRejected)
  else if policy = "caller_runs" then
    (f, none)
  else if policy = "discard" then
    (f.complete { value := none, error := some .taskRejected }, none)
  else
    (f.complete { value := none, error := some .taskRejected }, some .taskRejected)

/-- `SubmitWithContext`, projected onto what the caller receives: the
`*Future` (`none` = `nil`) and the `error`.  `state` is the executor state
word, `queueHasSpace` says whether the non-blocking send on `taskQueue`
succeeds.  On rejection the source line is `return nil, e.handleRejectedTask(wrapper)`:
the wrapper's (possibly completed) future is never handed to the caller. -/
def SubmitWithContext (state : Int) (policy : String) (queueHasSpace : Bool) :
    Option Future × Option GoErr :=
  if state ≠ 0 then (none, some .executorShutdown)
  else if queueHasSpace then (some NewFuture, none)
  else (none, (handleRejectedTask policy NewFuture).2)

/-! ### Worker-count bookkeeping (`executors.go`) -/

/-- The atomic worker counters of `ThreadPoolExecutor` plus a ghost count of
actually running `workerLoop` goroutines. -/
structure PoolState where
  workers : Int
  coreWorkers : Int
  liveWorkers : Int
deriving DecidableEq

/-- `startWorker`: add to `coreWorkers` when core, unconditionally add to
`workers`, then spawn one `workerLoop` goroutine. -/
def startWorker (s : PoolState) (isCore : Bool) : PoolState :=
  let s := if isCore then { s with coreWorkers := s.coreWorkers + 1 } else s
  { s with workers := s.workers + 1, liveWorkers := s.liveWorkers + 1 }

/-- `checkAndStartWorker`: load `workers` and the queue length; if the queue
has backlog and `workers < MaxPoolSize`, CAS `workers` up by one and, on
success, call `startWorker(false)` (which adds to `workers` again).
`casSucceeds` models whether the CAS wins against concurrent updates. -/
def checkAndStartWorker (s : PoolState) (maxPoolSize queueLen : Int)
    (casSucceeds : Bool) : PoolState :=
  if queueLen > 0 ∧ s.workers < maxPoolSize then
    if casSucceeds then startWorker { s with workers := s.workers + 1 } false
    else s
  else s

/-- The deferred exit path of `workerLoop`: decrement `workers` (and
`coreWorkers` when core); one goroutine ends. -/
def workerExit (s : PoolState) (isCore : Bool) : PoolState :=
  let s := { s with workers := s.workers - 1, liveWorkers := s.liveWorkers - 1 }
  if isCore then { s with coreWorkers := s.coreWorkers - 1 } else s

/-! ### Worker loop (`executors.go`) -/

/-- The three cases of the `select` in `workerLoop`. -/
inductive SelCase where
  | shutdownSig
  | dequeue
  | idleTimeout
deriving DecidableEq

/-- State of one worker together with the shared queue and shutdown flag.
`queue`/`executed` carry wrapper identifiers. -/
structure WorkerSys where
  cfgCorePoolSize : Int
  cfgAllowCoreTimeout : Bool
  workers : Int
  isCore : Bool
  queue : List Nat
  executed : List Nat
  shutdownClosed : Bool
  workerExited : Bool
deriving DecidableEq

/-- Whether a `select` case is ready: the shutdown case once `shutdownCh` is
closed, the dequeue case when the queue is non-empty, the `time.After` case
always (eventually). -/
def selReady (s : WorkerSys) : SelCase → Bool
  | .shutdownSig => s.shutdownClosed
  | .dequeue => !s.queue.isEmpty
  | .idleTimeout => true

/-- One iteration of `workerLoop`, taking the `select` case chosen by the Go
runtime (when several are ready the runtime picks one of them at random).
An unready case or an exited worker leaves the state unchanged. -/
def workerStep (s : WorkerSys) (c : SelCase) : WorkerSys :=
  if s.workerExited ∨ ¬ selReady s c then s
  else
    match c with
    | .shutdownSig => { s with workerExited := true, workers := s.workers - 1 }
    | .dequeue =>
      match s.queue with
      | [] => s
      | w :: rest => { s with queue := rest, executed := s.executed ++ [w] }
    | .idleTimeout =>
      if ¬ s.isCore ∨ s.cfgAllowCoreTimeout then
        let minWorkers := if s.cfgAllowCoreTimeout then 0 else s.cfgCorePoolSize
        if s.workers > minWorkers then
          { s with workerExited := true, workers := s.workers - 1 }
        else s
      else s

/-- A run of the worker loop under a sequence of `select` choices. -/
def workerRun (s : WorkerSys) (cs : List SelCase) : WorkerSys :=
  cs.foldl workerStep s

/-! ### Task execution (`executeTask` in `executors.go`) -/

/-- How the task body behaves when invoked: return `(v, nil)`, return
`(v, err)`, or terminate abnormally with a panic value. -/
inductive TaskBehavior where
  | ret (v : Option GoValue)
  | fail (v : Option GoValue) (e : GoErr)
  | panics (cause : Nat)
deriving DecidableEq

/-- `executeTask`.  `ctxErr` is `wrapper.future.ctx.Err()` at the
pre-execution check (`some e` when the scope is already done).  The two
`defer`s run on every path: the recover-based fault barrier completes the
future with a wrapped panic error and bumps `TasksPanic`, and the outer defer
records the elapsed nanoseconds; being installed before the scope check, the
barrier covers both the check and the task body, so the function always
returns normally. -/
def executeTask (m : Metrics) (f : Future) (ctxErr : Option GoErr)
    (beh : TaskBehavior) (elapsed : Int) : Metrics × Future :=
  match ctxErr with
  | some e => (m.recordExecutionTime elapsed, f.complete { value := none, error := some e })
  | none =>
    match beh with
    | .panics cause =>
      ((m.incPanic).recordExecutionTime elapsed,
        f.complete { value := none, error := some (.taskPanicWrap cause) })
    | .ret v =>
      ((m.incCompleted).recordExecutionTime elapsed,
        f.complete { value := v, error := none })
    | .fail v e =>
      ((m.incFailed).recordExecutionTime elapsed,
        f.complete { value := v, error := some e })

/-! ### Executor state machine (`Shutdown`, `ShutdownNow`) -/

/-- The lifecycle-relevant state of `ThreadPoolExecutor`: the atomic state
word (0 running, 1 shutdown, 2 terminated), the `shutdownCh` flag and the
queued wrapper identifiers. -/
structure ExecCtl where
  state : Int
  shutdownClosed : Bool
  queue : List Nat
deriving DecidableEq

/-- `Shutdown`: a single `CAS(state, 0, 1)`; on success close `shutdownCh`,
otherwise do nothing. -/
def ExecCtl.shutdown (e : ExecCtl) : ExecCtl :=
  if e.state = 0 then { e with state := 1, shutdownClosed := true } else e

/-- `ShutdownNow`: a single `CAS(state, 0, 2)`; on success close `shutdownCh`,
drain the queue (completing each drained wrapper's future with the shutdown
error) and return the drained tasks; on failure return `nil`. -/
def ExecCtl.shutdownNow (e : ExecCtl) : ExecCtl × Option (List Nat) :=
  if e.state = 0 then
    ({ e with state := 2, shutdownClosed := true, queue := [] }, some e.queue)
  else (e, none)

/-- `IsShutdown`: `state != 0`. -/
def ExecCtl.isShutdown (e : ExecCtl) : Bool := e.state ≠ 0

/-- `IsTerminated`: `state == 2`. -/
def ExecCtl.isTerminated (e : ExecCtl) : Bool := e.state = 2

/-- Executor control states reachable from construction: the executor starts
running, submissions enqueue while running, workers dequeue, and the two
shutdown entry points are the only state-word writers. -/
inductive ExecReach : ExecCtl → Prop where
  | init (q : List Nat) : ExecReach { state := 0, shutdownClosed := false, queue := q }
  | enq (e : ExecCtl) (w : Nat) : ExecReach e → e.state = 0 →
      ExecReach { e with queue := e.queue ++ [w] }
  | deq (e : ExecCtl) : ExecReach e → ExecReach { e with queue := e.queue.tail }
  | shut (e : ExecCtl) : ExecReach e → ExecReach e.shutdown
  | shutNow (e : ExecCtl) : ExecReach e → ExecReach (e.shutdownNow).1

/-- Futures reachable through the `Future` API: created by `NewFuture`, then
any interleaving of `complete` and `Cancel` calls. -/
inductive FutureEvolve : Future → Prop where
  | new : FutureEvolve NewFuture
  | complete (f : Future) (r : Result) : FutureEvolve f → FutureEvolve (f.complete r)
  | cancel (f : Future) : FutureEvolve f → FutureEvolve f.cancel

/-! ### Concrete scenario states used in the theorems below -/

/-- Counter state after constructing an executor with `CorePoolSize = 1`:
one `startWorker(true)` call on the zero state. -/
def poolAfterCore : PoolState :=
  startWorker { workers := 0, coreWorkers := 0, liveWorkers := 0 } true

/-- Counter state after the surge check of one successful enqueue with
`MaxPoolSize = 2` and one wrapper in the queue. -/
def poolAfterSurge : PoolState := checkAndStartWorker poolAfterCore 2 1 true

/-- A single-core-worker pool (`CorePoolSize = 1`,
`AllowCoreThreadTimeOut = false`) with wrapper `0` enqueued, right after a
graceful `Shutdown` closed `shutdownCh`. -/
def shutdownScenario : WorkerSys :=
  { cfgCorePoolSize := 1, cfgAllowCoreTimeout := false, workers := 1,
    isCore := true, queue := [0], executed := [], shutdownClosed := true,
    workerExited := false }

/-- A control state that has gone through a graceful `Shutdown` with one
wrapper still queued. -/
def sampleCtl : ExecCtl :=
  ExecCtl.shutdown { state := 0, shutdownClosed := false, queue := [5] }

end GoExecutors

namespace GoExecutors

/-! ## Helper lemmas -/

theorem wrap64_eq_self {x : Int} (h1 : -(2 ^ 63) ≤ x) (h2 : x < 2 ^ 63) :
    wrap64 x = x := by
  unfold wrap64
  have h3 : (0 : Int) ≤ x + 2 ^ 63 := by omega
  have h4 : x + 2 ^ 63 < 2 ^ 64 := by omega
  rw [Int.emod_eq_of_lt h3 h4]
  omega

theorem record_total (m : Metrics) (d : Int) :
    (m.recordExecutionTime d).totalExecutionTime = wrap64 (m.totalExecutionTime + d) := by
  unfold Metrics.recordExecutionTime
  dsimp only
  split <;> split <;> rfl

theorem record_min (m : Metrics) (d : Int) :
    (m.recordExecutionTime d).minExecutionTime = min m.minExecutionTime d := by
  unfold Metrics.recordExecutionTime
  dsimp only
  split <;> split <;> dsimp only at * <;> rw [min_def] <;> split <;> omega

theorem record_max (m : Metrics) (d : Int) :
    (m.recordExecutionTime d).maxExecutionTime = max m.maxExecutionTime d := by
  unfold Metrics.recordExecutionTime
  dsimp only
  split <;> split <;> dsimp only at * <;> rw [max_def] <;> split <;> omega

theorem record_counters (m : Metrics) (d : Int) :
    (m.recordExecutionTime d).tasksPanic = m.tasksPanic ∧
    (m.recordExecutionTime d).tasksCompleted = m.tasksCompleted ∧
    (m.recordExecutionTime d).tasksFailed = m.tasksFailed ∧
    (m.recordExecutionTime d).tasksSubmitted = m.tasksSubmitted := by
  unfold Metrics.recordExecutionTime
  dsimp only
  split <;> split <;> exact ⟨rfl, rfl, rfl, rfl⟩

theorem foldl_min_le_init (l : List Int) : ∀ a : Int, l.foldl min a ≤ a := by
  induction l with
  | nil => intro a; exact le_refl a
  | cons x t ih =>
    intro a
    calc (x :: t).foldl min a = t.foldl min (min a x) := rfl
    _ ≤ min a x := ih (min a x)
    _ ≤ a := min_le_left a x

theorem foldl_min_le_mem (l : List Int) : ∀ (a : Int) (d : Int), d ∈ l → l.foldl min a ≤ d := by
  induction l with
  | nil => intro a d hd; cases hd
  | cons x t ih =>
    intro a d hd
    rcases List.mem_cons.mp hd with h | h
    · subst h
      calc (d :: t).foldl min a = t.foldl min (min a d) := rfl
      _ ≤ min a d := foldl_min_le_init t (min a d)
      _ ≤ d := min_le_right a d
    · exact ih (min a x) d h

theorem foldl_min_mem_or (l : List Int) : ∀ a : Int, l.foldl min a = a ∨ l.foldl min a ∈ l := by
  induction l with
  | nil => intro a; left; rfl
  | cons x t ih =>
    intro a
    rcases ih (min a x) with h | h
    · rcases min_cases a x with ⟨he, _⟩ | ⟨he, _⟩
      · left
        calc (x :: t).foldl min a = t.foldl min (min a x) := rfl
        _ = min a x := h
        _ = a := he
      · right
        apply List.mem_cons.mpr
        left
        calc (x :: t).foldl min a = t.foldl min (min a x) := rfl
        _ = min a x := h
        _ = x := he
    · right
      exact List.mem_cons.mpr (Or.inr h)

theorem foldl_max_init_le (l : List Int) : ∀ a : Int, a ≤ l.foldl max a := by
  induction l with
  | nil => intro a; exact le_refl a
  | cons x t ih =>
    intro a
    calc a ≤ max a x := le_max_left a x
    _ ≤ t.foldl max (max a x) := ih (max a x)
    _ = (x :: t).foldl max a := rfl

theorem foldl_max_mem_le (l : List Int) : ∀ (a : Int) (d : Int), d ∈ l → d ≤ l.foldl max a := by
  induction l with
  | nil => intro a d hd; cases hd
  | cons x t ih =>
    intro a d hd
    rcases List.mem_cons.mp hd with h | h
    · subst h
      calc d ≤ max a d := le_max_right a d
      _ ≤ t.foldl max (max a d) := foldl_max_init_le t (max a d)
      _ = (d :: t).foldl max a := rfl
    · exact ih (max a x) d h

theorem foldl_max_mem_or (l : List Int) : ∀ a : Int, l.foldl max a = a ∨ l.foldl max a ∈ l := by
  induction l with
  | nil => intro a; left; rfl
  | cons x t ih =>
    intro a
    rcases ih (max a x) with h | h
    · rcases max_cases a x with ⟨he, _⟩ | ⟨he, _⟩
      · left
        calc (x :: t).foldl max a = t.foldl max (max a x) := rfl
        _ = max a x := h
        _ = a := he
      · right
        apply List.mem_cons.mpr
        left
        calc (x :: t).foldl max a = t.foldl max (max a x) := rfl
        _ = max a x := h
        _ = x := he
    · right
      exact List.mem_cons.mpr (Or.inr h)

theorem recordAll_min (l : List Int) :
    ∀ m : Metrics, (m.recordAll l).minExecutionTime = l.foldl min m.minExecutionTime := by
  induction l with
  | nil => intro m; rfl
  | cons d t ih =>
    intro m
    calc (m.recordAll (d :: t)).minExecutionTime
        = ((m.recordExecutionTime d).recordAll t).minExecutionTime := rfl
    _ = t.foldl min (m.recordExecutionTime d).minExecutionTime := ih _
    _ = t.foldl min (min m.minExecutionTime d) := by rw [record_min]
    _ = (d :: t).foldl min m.minExecutionTime := rfl

theorem recordAll_max (l : List Int) :
    ∀ m : Metrics, (m.recordAll l).maxExecutionTime = l.foldl max m.maxExecutionTime := by
  induction l with
  | nil => intro m; rfl
  | cons d t ih =>
    intro m
    calc (m.recordAll (d :: t)).maxExecutionTime
        = ((m.recordExecutionTime d).recordAll t).maxExecutionTime := rfl
    _ = t.foldl max (m.recordExecutionTime d).maxExecutionTime := ih _
    _ = t.foldl max (max m.maxExecutionTime d) := by rw [record_max]
    _ = (d :: t).foldl max m.maxExecutionTime := rfl

theorem recordAll_total (l : List Int) :
    ∀ m : Metrics, 0 ≤ m.totalExecutionTime → (∀ d ∈ l, 0 ≤ d) →
      m.totalExecutionTime + l.sum ≤ int64Max →
      (m.recordAll l).totalExecutionTime = m.totalExecutionTime + l.sum := by
  induction l with
  | nil =>
    intro m _ _ _
    show m.totalExecutionTime = m.totalExecutionTime + 0
    omega
  | cons d t ih =>
    intro m h0 hl hs
    have hd : 0 ≤ d := hl d (List.mem_cons_self d t)
    have hts : 0 ≤ t.sum := List.sum_nonneg (fun x hx => hl x (List.mem_cons_of_mem d hx))
    have hsum : (d :: t).sum = d + t.sum := List.sum_cons
    have hmax : int64Max = 2 ^ 63 - 1 := rfl
    have h1 : (m.recordExecutionTime d).totalExecutionTime = m.totalExecutionTime + d := by
      rw [record_total]
      exact wrap64_eq_self (by omega) (by rw [hsum] at hs; omega)
    calc (m.recordAll (d :: t)).totalExecutionTime
        = ((m.recordExecutionTime d).recordAll t).totalExecutionTime := rfl
    _ = (m.recordExecutionTime d).totalExecutionTime + t.sum := by
        apply ih
        · rw [h1]; omega
        · exact fun x hx => hl x (List.mem_cons_of_mem d hx)
        · rw [h1]; rw [hsum] at hs; omega
    _ = m.totalExecutionTime + (d :: t).sum := by rw [h1, hsum]; omega

/-! ## Claims -/

/-- C1.  The claimed worker-count invariant `workers ≤ MaxPoolSize` with a
single increment per surge provisioning fails on the code: with
`CorePoolSize = 1` and `MaxPoolSize = 2`, one core worker alive and one
wrapper queued, the surge path CASes `workers` from 1 to 2 and then
`startWorker(false)` increments it again, so `workers = 3 > MaxPoolSize = 2`
while only 2 worker goroutines exist; the exiting surge worker decrements
only once, leaving `workers = 2` with a single live goroutine. -/
theorem surge_worker_double_increment :
    poolAfterCore.workers = 1 ∧ poolAfterCore.liveWorkers = 1 ∧
    poolAfterSurge.workers = 3 ∧ poolAfterSurge.liveWorkers = 2 ∧
    ¬ poolAfterSurge.workers ≤ 2 ∧
    (workerExit poolAfterSurge false).workers = 2 ∧
    (workerExit poolAfterSurge false).liveWorkers = 1 := by
  refine ⟨rfl, rfl, rfl, rfl, by decide, rfl, rfl⟩

/-- C2.  Under the *discard* policy a full-queue submission returns
`(nil, nil)`: the wrapper's future is completed with the rejected error but
never handed to the caller, so the caller cannot observe the rejection.  The
*caller_runs* policy also returns `(nil, nil)`.  This contradicts the claimed
"never (nil, nil)" shape of `submit` results. -/
theorem submit_discard_returns_nil_nil :
    SubmitWithContext 0 "discard" false = (none, none) ∧
    (handleRejectedTask "discard" NewFuture).1.result
      = some { value := none, error := some .taskRejected } ∧
    SubmitWithContext 0 "caller_runs" false = (none, none) := by
  refine ⟨?_, ?_, ?_⟩ <;> decide

/-- C3.  Graceful shutdown does not drain the queue: with one wrapper queued
and `shutdownCh` closed, both the shutdown case and the dequeue case of the
worker's `select` are ready, the Go runtime may pick either, and picking the
shutdown case makes the only worker exit with the wrapper still queued and
never executed (its future is then never completed). -/
theorem graceful_shutdown_abandons_queue :
    selReady shutdownScenario .shutdownSig = true ∧
    selReady shutdownScenario .dequeue = true ∧
    (workerRun shutdownScenario [.shutdownSig]).workerExited = true ∧
    (workerRun shutdownScenario [.shutdownSig]).queue = [0] ∧
    (workerRun shutdownScenario [.shutdownSig]).executed = [] := by
  refine ⟨rfl, rfl, ?_, ?_, ?_⟩ <;> decide

/-- C4.  When `GetWithTimeout` expires before the future completes it returns
the timeout error, leaves the future (its context-cancel flag and its result
slot) untouched, and the eventual completion still installs the outcome,
which a later `Get` returns. -/
theorem getWithTimeout_expiry_nonintrusive (f : Future) (r : Result)
    (hdone : f.doneClosed = false) (honce : f.onceUsed = false) :
    (f.getWithTimeout false).1 = (none, some GoErr.taskTimeout) ∧
    (f.getWithTimeout false).2 = f ∧
    (f.getWithTimeout false).2.ctxCanceled = f.ctxCanceled ∧
    (f.getWithTimeout false).2.result = f.result ∧
    (f.getWithTimeout false).2.isDone = false ∧
    ((f.getWithTimeout false).2.complete r).result = some r ∧
    ((f.getWithTimeout false).2.complete r).getAfterDone = (r.value, r.error) := by
  refine ⟨rfl, rfl, rfl, rfl, ?_, ?_, ?_⟩ <;>
    simp [Future.getWithTimeout, Future.complete, Future.getAfterDone, Future.isDone,
      honce, hdone]

/-- Witness for C4 at a fresh future and the outcome `(7, nil)`. -/
theorem getWithTimeout_expiry_nonintrusive_witness :
    (NewFuture.getWithTimeout false).1 = (none, some GoErr.taskTimeout) ∧
    ((NewFuture.getWithTimeout false).2.complete { value := some 7, error := none }).getAfterDone
      = (some 7, none) := by
  have h := getWithTimeout_expiry_nonintrusive NewFuture { value := some 7, error := none } rfl rfl
  exact ⟨h.1, h.2.2.2.2.2.2⟩

/-- C5.  After `Validate`, `CorePoolSize ≥ 1`, `MaxPoolSize ≥ CorePoolSize`,
`QueueSize ≥ 0`, `KeepAliveTime > 0` and the worker-name prefix is non-empty;
and `handleRejectedTask` treats any policy outside
`{abort, caller_runs, discard}` exactly as *abort*. -/
theorem validate_core_ge (c : Config) : 1 ≤ c.validate.corePoolSize := by
  unfold Config.validate
  dsimp only
  split_ifs <;> (try dsimp only at *) <;> omega

theorem validate_core_le_max (c : Config) :
    c.validate.corePoolSize ≤ c.validate.maxPoolSize := by
  unfold Config.validate
  dsimp only
  split_ifs <;> (try dsimp only at *) <;> omega

theorem validate_queue_nonneg (c : Config) : 0 ≤ c.validate.queueSize := by
  unfold Config.validate
  dsimp only
  split_ifs <;> (try dsimp only at *) <;> omega

theorem validate_keepAlive_pos (c : Config) : 0 < c.validate.keepAliveTime := by
  unfold Config.validate
  dsimp only
  split_ifs <;> (try dsimp only at *) <;> omega

theorem validate_name_nonempty (c : Config) : c.validate.threadNamePfx ≠ "" := by
  unfold Config.validate
  dsimp only
  split_ifs <;> (try dsimp only at *) <;> first | decide | assumption

theorem rejectPolicy_default_is_abort (p : String) (f : Future)
    (h1 : p ≠ "abort") (h2 : p ≠ "caller_runs") (h3 : p ≠ "discard") :
    handleRejectedTask p f = handleRejectedTask "abort" f := by
  unfold handleRejectedTask
  rw [if_neg h1, if_neg h2, if_neg h3, if_pos rfl]

theorem validate_post_invariants (c : Config) :
    1 ≤ c.validate.corePoolSize ∧
    c.validate.corePoolSize ≤ c.validate.maxPoolSize ∧
    0 ≤ c.validate.queueSize ∧
    0 < c.validate.keepAliveTime ∧
    c.validate.threadNamePfx ≠ "" ∧
    (∀ (p : String) (f : Future), p ≠ "abort" → p ≠ "caller_runs" → p ≠ "discard" →
      handleRejectedTask p f = handleRejectedTask "abort" f) :=
  ⟨validate_core_ge c, validate_core_le_max c, validate_queue_nonneg c,
    validate_keepAlive_pos c, validate_name_nonempty c,
    fun p f h1 h2 h3 => rejectPolicy_default_is_abort p f h1 h2 h3⟩

/-- Witness for C5 at the degenerate config with `CorePoolSize = 0` (clamped
to 1 by validation) and the unknown policy `"zzz"`. -/
theorem validate_post_invariants_witness :
    1 ≤ (DefaultConfig 0).validate.corePoolSize ∧
    handleRejectedTask "zzz" NewFuture = handleRejectedTask "abort" NewFuture := by
  have h := validate_post_invariants (DefaultConfig 0)
  exact ⟨h.1, h.2.2.2.2.2 "zzz" NewFuture (by decide) (by decide) (by decide)⟩

/-- C6.  `MinExecutionTime` starts at the largest non-negative `int64`; after
recording the non-negative, in-range durations `d1..dn` (`n ≥ 1`, sum within
`int64` range) the min field is the minimum of the `di`, the max field their
maximum, and the total their sum; hence final min ≤ every observed duration ≤
final max. -/
theorem recordExecution_min_max_total (l : List Int) (hne : l ≠ [])
    (hbound : ∀ d ∈ l, 0 ≤ d ∧ d ≤ int64Max) (hsum : l.sum ≤ int64Max) :
    NewMetrics.minExecutionTime = int64Max ∧
    (NewMetrics.recordAll l).minExecutionTime ∈ l ∧
    (∀ d ∈ l, (NewMetrics.recordAll l).minExecutionTime ≤ d) ∧
    (NewMetrics.recordAll l).maxExecutionTime ∈ l ∧
    (∀ d ∈ l, d ≤ (NewMetrics.recordAll l).maxExecutionTime) ∧
    (NewMetrics.recordAll l).totalExecutionTime = l.sum := by
  obtain ⟨d0, hd0⟩ := List.exists_mem_of_ne_nil l hne
  have hmin := recordAll_min l NewMetrics
  have hmax := recordAll_max l NewMetrics
  refine ⟨rfl, ?_, ?_, ?_, ?_, ?_⟩
  · rw [hmin]
    rcases foldl_min_mem_or l NewMetrics.minExecutionTime with h | h
    · have hle := foldl_min_le_mem l NewMetrics.minExecutionTime d0 hd0
      have hb2 := (hbound d0 hd0).2
      have hinit : NewMetrics.minExecutionTime = int64Max := rfl
      have hval : int64Max = 2 ^ 63 - 1 := rfl
      have heq : l.foldl min NewMetrics.minExecutionTime = d0 := by omega
      rw [heq]; exact hd0
    · exact h
  · intro d hd
    rw [hmin]
    exact foldl_min_le_mem l NewMetrics.minExecutionTime d hd
  · rw [hmax]
    rcases foldl_max_mem_or l NewMetrics.maxExecutionTime with h | h
    · have hle := foldl_max_mem_le l NewMetrics.maxExecutionTime d0 hd0
      have hb1 := (hbound d0 hd0).1
      have hinit : NewMetrics.maxExecutionTime = 0 := rfl
      have heq : l.foldl max NewMetrics.maxExecutionTime = d0 := by omega
      rw [heq]; exact hd0
    · exact h
  · intro d hd
    rw [hmax]
    exact foldl_max_mem_le l NewMetrics.maxExecutionTime d hd
  · have h6 := recordAll_total l NewMetrics (by decide)
      (fun d hd => (hbound d hd).1) (by simpa [NewMetrics] using hsum)
    rw [h6]
    simp [NewMetrics]

/-- Witness for C6 at the duration list `[5, 3, 9]`. -/
theorem recordExecution_min_max_total_witness :
    (NewMetrics.recordAll [5, 3, 9]).totalExecutionTime = [5, 3, 9].sum ∧
    (NewMetrics.recordAll [5, 3, 9]).minExecutionTime ∈ [5, 3, 9] ∧
    (NewMetrics.recordAll [5, 3, 9]).maxExecutionTime ∈ [5, 3, 9] := by
  have h := recordExecution_min_max_total [5, 3, 9] (by decide) (by decide) (by decide)
  exact ⟨h.2.2.2.2.2, h.2.1, h.2.2.2.1⟩

/-- C7, counterexample.  `LoadFromEnv` never reads
`GO_EXECUTOR_THREAD_NAME_PREFIX`, so the documented override for the
worker-name prefix is silently ignored; and a non-`"true"` value of
`GO_EXECUTOR_ENABLE_METRICS` (here `"yes"`, unparseable as a Go boolean)
overwrites a prior `true` with `false` instead of leaving the field at its
prior value. -/
theorem loadFromEnv_overrides_cex :
    ((DefaultConfig 4).loadFromEnv
        [("GO_EXECUTOR_THREAD_NAME_PREFIX", "custom")]).threadNamePfx = "goexecutor" ∧
    "goexecutor" ≠ "custom" ∧
    ({ DefaultConfig 4 with enableMetrics := true }.loadFromEnv
        [("GO_EXECUTOR_ENABLE_METRICS", "yes")]).enableMetrics = false := by
  refine ⟨?_, ?_, ?_⟩ <;> decide

/-- C7, amended.  `LoadFromEnv` reads `GO_EXECUTOR_<UPPER_SNAKE>` only for
CorePoolSize, MaxPoolSize, KeepAliveTime, QueueSize, RejectPolicy,
EnableMetrics, EnableLogging and LogLevel.  AllowCoreThreadTimeOut,
ThreadNamePrefix and MetricsInterval have no environment override.  For the
numeric options an unset variable or a parse failure leaves the field at its
prior value and a successful parse is applied; RejectPolicy and LogLevel take
any non-empty value verbatim; EnableMetrics and EnableLogging are set to
`value == "true"` for any non-empty value. -/
theorem loadFromEnv_amended (c : Config) (env : Env) :
    (c.loadFromEnv env).threadNamePfx = c.threadNamePfx ∧
    (c.loadFromEnv env).allowCoreThreadTimeOut = c.allowCoreThreadTimeOut ∧
    (c.loadFromEnv env).metricsInterval = c.metricsInterval ∧
    (getenv env "GO_EXECUTOR_CORE_POOL_SIZE" = "" ∨
        parseInt32 (getenv env "GO_EXECUTOR_CORE_POOL_SIZE") = none →
      (c.loadFromEnv env).corePoolSize = c.corePoolSize) ∧
    (∀ n, getenv env "GO_EXECUTOR_CORE_POOL_SIZE" ≠ "" →
      parseInt32 (getenv env "GO_EXECUTOR_CORE_POOL_SIZE") = some n →
      (c.loadFromEnv env).corePoolSize = n) ∧
    (getenv env "GO_EXECUTOR_MAX_POOL_SIZE" = "" ∨
        parseInt32 (getenv env "GO_EXECUTOR_MAX_POOL_SIZE") = none →
      (c.loadFromEnv env).maxPoolSize = c.maxPoolSize) ∧
    (∀ n, getenv env "GO_EXECUTOR_MAX_POOL_SIZE" ≠ "" →
      parseInt32 (getenv env "GO_EXECUTOR_MAX_POOL_SIZE") = some n →
      (c.loadFromEnv env).maxPoolSize = n) ∧
    (getenv env "GO_EXECUTOR_KEEP_ALIVE_TIME" = "" ∨
        parseDuration (getenv env "GO_EXECUTOR_KEEP_ALIVE_TIME") = none →
      (c.loadFromEnv env).keepAliveTime = c.keepAliveTime) ∧
    (∀ n, getenv env "GO_EXECUTOR_KEEP_ALIVE_TIME" ≠ "" →
      parseDuration (getenv env "GO_EXECUTOR_KEEP_ALIVE_TIME") = some n →
      (c.loadFromEnv env).keepAliveTime = n) ∧
    (getenv env "GO_EXECUTOR_QUEUE_SIZE" = "" ∨
        parseInt64 (getenv env "GO_EXECUTOR_QUEUE_SIZE") = none →
      (c.loadFromEnv env).queueSize = c.queueSize) ∧
    (∀ n, getenv env "GO_EXECUTOR_QUEUE_SIZE" ≠ "" →
      parseInt64 (getenv env "GO_EXECUTOR_QUEUE_SIZE") = some n →
      (c.loadFromEnv env).queueSize = n) ∧
    (getenv env "GO_EXECUTOR_REJECT_POLICY" = "" →
      (c.loadFromEnv env).rejectPolicy = c.rejectPolicy) ∧
    (getenv env "GO_EXECUTOR_REJECT_POLICY" ≠ "" →
      (c.loadFromEnv env).rejectPolicy = getenv env "GO_EXECUTOR_REJECT_POLICY") ∧
    (getenv env "GO_EXECUTOR_LOG_LEVEL" = "" →
      (c.loadFromEnv env).logLevel = c.logLevel) ∧
    (getenv env "GO_EXECUTOR_LOG_LEVEL" ≠ "" →
      (c.loadFromEnv env).logLevel = getenv env "GO_EXECUTOR_LOG_LEVEL") ∧
    (getenv env "GO_EXECUTOR_ENABLE_METRICS" = "" →
      (c.loadFromEnv env).enableMetrics = c.enableMetrics) ∧
    (getenv env "GO_EXECUTOR_ENABLE_METRICS" ≠ "" →
      (c.loadFromEnv env).enableMetrics
        = decide (getenv env "GO_EXECUTOR_ENABLE_METRICS" = "true")) ∧
    (getenv env "GO_EXECUTOR_ENABLE_LOGGING" = "" →
      (c.loadFromEnv env).enableLogging = c.enableLogging) ∧
    (getenv env "GO_EXECUTOR_ENABLE_LOGGING" ≠ "" →
      (c.loadFromEnv env).enableLogging
        = decide (getenv env "GO_EXECUTOR_ENABLE_LOGGING" = "true")) := by
  unfold Config.loadFromEnv envIntVal envStrVal envBoolVal
  dsimp only
  refine ⟨rfl, rfl, rfl, ?_, ?_, ?_, ?_, ?_, ?_, ?_, ?_, ?_, ?_, ?_, ?_, ?_, ?_, ?_, ?_⟩ <;>
    first
    | (rintro (h | h) <;> simp [h])
    | (intro n h1 h2; simp [h1, h2])
    | (intro h; simp [h])

/-- Witness for C7's amended claim: a parse success is applied and a parse
failure keeps the prior value. -/
theorem loadFromEnv_amended_witness :
    ((DefaultConfig 4).loadFromEnv [("GO_EXECUTOR_CORE_POOL_SIZE", "10")]).corePoolSize = 10 ∧
    ((DefaultConfig 4).loadFromEnv [("GO_EXECUTOR_QUEUE_SIZE", "12x")]).queueSize
      = (DefaultConfig 4).queueSize := by
  have h1 := loadFromEnv_amended (DefaultConfig 4) [("GO_EXECUTOR_CORE_POOL_SIZE", "10")]
  have h2 := loadFromEnv_amended (DefaultConfig 4) [("GO_EXECUTOR_QUEUE_SIZE", "12x")]
  exact ⟨h1.2.2.2.2.1 10 (by decide) (by decide),
    h2.2.2.2.2.2.2.2.2.2.1 (Or.inr (by decide))⟩

/-- C8.  When the task panics, the fault barrier catches it: `TasksPanic` is
incremented exactly once, `TasksCompleted` and `TasksFailed` are untouched,
the future is completed with the task-faulted error wrapping the panic cause,
and the elapsed time is still recorded into total/min/max.  The last conjunct
shows the barrier also covers the pre-execution scope check path, whose
completion with the scope error likewise returns normally. -/
theorem executeTask_panic_barrier (m : Metrics) (f : Future) (cause : Nat) (d : Int)
    (honce : f.onceUsed = false)
    (hp0 : 0 ≤ m.tasksPanic) (hp1 : m.tasksPanic < int64Max)
    (ht0 : 0 ≤ m.totalExecutionTime) (hd0 : 0 ≤ d)
    (hts : m.totalExecutionTime + d ≤ int64Max) :
    (executeTask m f none (.panics cause) d).1.tasksPanic = m.tasksPanic + 1 ∧
    (executeTask m f none (.panics cause) d).1.tasksCompleted = m.tasksCompleted ∧
    (executeTask m f none (.panics cause) d).1.tasksFailed = m.tasksFailed ∧
    (executeTask m f none (.panics cause) d).2.result
      = some { value := none, error := some (GoErr.taskPanicWrap cause) } ∧
    (executeTask m f none (.panics cause) d).2.doneClosed = true ∧
    (executeTask m f none (.panics cause) d).1.totalExecutionTime
      = m.totalExecutionTime + d ∧
    (executeTask m f none (.panics cause) d).1.minExecutionTime
      = min m.minExecutionTime d ∧
    (executeTask m f none (.panics cause) d).1.maxExecutionTime
      = max m.maxExecutionTime d ∧
    (executeTask m f (some .contextCanceled) (.panics cause) d).2.result
      = some { value := none, error := some GoErr.contextCanceled } := by
  have hval : int64Max = 2 ^ 63 - 1 := rfl
  have hrc := record_counters (m.incPanic) d
  have hw1 : wrap64 (m.tasksPanic + 1) = m.tasksPanic + 1 :=
    wrap64_eq_self (by omega) (by omega)
  have hw2 : wrap64 (m.totalExecutionTime + d) = m.totalExecutionTime + d :=
    wrap64_eq_self (by omega) (by omega)
  refine ⟨?_, ?_, ?_, ?_, ?_, ?_, ?_, ?_, ?_⟩
  · show ((m.incPanic).recordExecutionTime d).tasksPanic = m.tasksPanic + 1
    rw [hrc.1]
    show wrap64 (m.tasksPanic + 1) = m.tasksPanic + 1
    exact hw1
  · show ((m.incPanic).recordExecutionTime d).tasksCompleted = m.tasksCompleted
    rw [hrc.2.1]
    rfl
  · show ((m.incPanic).recordExecutionTime d).tasksFailed = m.tasksFailed
    rw [hrc.2.2.1]
    rfl
  · show (f.complete { value := none, error := some (GoErr.taskPanicWrap cause) }).result
      = some { value := none, error := some (GoErr.taskPanicWrap cause) }
    simp [Future.complete, honce]
  · show (f.complete { value := none, error := some (GoErr.taskPanicWrap cause) }).doneClosed
      = true
    simp [Future.complete, honce]
  · show ((m.incPanic).recordExecutionTime d).totalExecutionTime
      = m.totalExecutionTime + d
    rw [record_total]
    show wrap64 (m.totalExecutionTime + d) = m.totalExecutionTime + d
    exact hw2
  · show ((m.incPanic).recordExecutionTime d).minExecutionTime
      = min m.minExecutionTime d
    rw [record_min]
    rfl
  · show ((m.incPanic).recordExecutionTime d).maxExecutionTime
      = max m.maxExecutionTime d
    rw [record_max]
    rfl
  · show (f.complete { value := none, error := some GoErr.contextCanceled }).result
      = some { value := none, error := some GoErr.contextCanceled }
    simp [Future.complete, honce]

/-- Witness for C8: a fresh pool, a fresh future, panic cause 100, elapsed
3 ns. -/
theorem executeTask_panic_barrier_witness :
    (executeTask NewMetrics NewFuture none (.panics 100) 3).1.tasksPanic
      = NewMetrics.tasksPanic + 1 ∧
    (executeTask NewMetrics NewFuture none (.panics 100) 3).2.result
      = some { value := none, error := some (GoErr.taskPanicWrap 100) } := by
  have h := executeTask_panic_barrier NewMetrics NewFuture 100 3 rfl
    (by decide) (by decide) (by decide) (by decide) (by decide)
  exact ⟨h.1, h.2.2.2.1⟩

/-- Reachable executor control states carry a state word in `{0, 1, 2}`. -/
theorem execReach_state_range (e : ExecCtl) (h : ExecReach e) :
    e.state = 0 ∨ e.state = 1 ∨ e.state = 2 := by
  induction h with
  | init q => exact Or.inl rfl
  | enq e w he hs ih => exact ih
  | deq e he ih => exact ih
  | shut e he ih =>
    unfold ExecCtl.shutdown
    split
    · exact Or.inr (Or.inl rfl)
    · exact ih
  | shutNow e he ih =>
    unfold ExecCtl.shutdownNow
    split
    · exact Or.inr (Or.inr rfl)
    · exact ih

/-- C9.  The state word only moves monotonically among running (0),
shutdown (1) and terminated (2), each transition a single CAS; `Shutdown` and
`ShutdownNow` after the state has advanced leave state and queue unchanged
(`ShutdownNow` returning `nil`); `IsShutdown` holds exactly in states 1 and 2
and `IsTerminated` exactly in state 2. -/
theorem executor_state_machine (e : ExecCtl) (h : ExecReach e) :
    (e.state = 0 ∨ e.state = 1 ∨ e.state = 2) ∧
    e.state ≤ e.shutdown.state ∧
    e.state ≤ (e.shutdownNow).1.state ∧
    (e.state ≠ 0 → e.shutdown = e) ∧
    (e.state ≠ 0 → e.shutdownNow = (e, none)) ∧
    (e.isShutdown = true ↔ (e.state = 1 ∨ e.state = 2)) ∧
    (e.isTerminated = true ↔ e.state = 2) := by
  have hr := execReach_state_range e h
  refine ⟨hr, ?_, ?_, ?_, ?_, ?_, ?_⟩ <;>
    rcases hr with h0 | h1 | h2 <;>
    simp_all [ExecCtl.shutdown, ExecCtl.shutdownNow, ExecCtl.isShutdown,
      ExecCtl.isTerminated]

/-- Witness for C9 at a state that has gone through a graceful shutdown. -/
theorem executor_state_machine_witness :
    sampleCtl.shutdown = sampleCtl ∧
    sampleCtl.shutdownNow = (sampleCtl, none) ∧
    (sampleCtl.isTerminated = true ↔ sampleCtl.state = 2) := by
  have h := executor_state_machine sampleCtl (ExecReach.shut _ (ExecReach.init [5]))
  exact ⟨h.2.2.2.1 (by decide), h.2.2.2.2.1 (by decide), h.2.2.2.2.2.2⟩

/-- C10.  For every future built through the API, once `done` is closed the
result slot is non-nil (`complete` installs the result before closing `done`
under the one-shot guard), so the "future has no result" branch of
`Get`/`GetWithTimeout` is unreachable and a read after completion returns the
installed outcome. -/
theorem future_done_implies_result (f : Future) (hf : FutureEvolve f)
    (hd : f.doneClosed = true) :
    ∃ r, f.result = some r ∧ f.getAfterDone = (r.value, r.error) := by
  induction hf with
  | new => simp [NewFuture] at hd
  | complete g r hg ih =>
    by_cases hu : g.onceUsed
    · have hne : g.complete r = g := by simp [Future.complete, hu]
      rw [hne] at hd ⊢
      exact ih hd
    · exact ⟨r, by simp [Future.complete, hu],
        by simp [Future.complete, Future.getAfterDone, hu]⟩
  | cancel g hg ih =>
    have h1 : (g.cancel).doneClosed = g.doneClosed := rfl
    have h2 : (g.cancel).result = g.result := rfl
    have h3 : (g.cancel).getAfterDone = g.getAfterDone := rfl
    rw [h1] at hd
    obtain ⟨r, hr1, hr2⟩ := ih hd
    exact ⟨r, by rw [h2]; exact hr1, by rw [h3]; exact hr2⟩

/-- Witness for C10 at a fresh future completed with the outcome `(5, nil)`. -/
theorem future_done_implies_result_witness :
    (NewFuture.complete { value := some 5, error := none }).result
      = some { value := some 5, error := none } ∧
    (NewFuture.complete { value := some 5, error := none }).getAfterDone
      = (some 5, none) := by
  obtain ⟨r, h1, h2⟩ := future_done_implies_result _
    (FutureEvolve.complete _ _ FutureEvolve.new) rfl
  have h0 : (NewFuture.complete { value := some 5, error := none }).result
      = some { value := some 5, error := none } := rfl
  rw [h0] at h1
  obtain rfl := Option.some_injective _ h1.symm
  exact ⟨h0, h2⟩

end GoExecutors
